import Mathlib

/-!
Shallow embedding of src/precompute_routes.py (taxi-static2trajectory).

Modelling conventions:
* Coordinates, durations, distances and wall-clock times are rationals
  (Python floats / pandas timestamps measured in seconds since an epoch).
* The network is an oracle: a function from the attempt number (the
  retry_count argument of get_osrm_route) to the response that attempt
  receives.  A whole run takes an oracle keyed additionally by trip id.
* Python exceptions raised by the pipeline itself (TypeError from indexing
  a list with a string, ZeroDivisionError from i / (num_points - 1)) are
  modelled with Except.
* strftime with a seconds-resolution format truncates a timestamp to whole
  seconds; modelled as the integer floor of the rational time.
* The human-readable popup string of a Feature (pure display formatting of
  the other fields) is not modelled.
-/

/-- Constants from the top of precompute_routes.py. -/
def MAX_RETRIES : Nat := 5

def INITIAL_WAIT : Nat := 1

def MAX_WAIT : Nat := 120

def CONCURRENT_REQUESTS : Nat := 10

def CHUNK_SIZE : Nat := 1000

/-- Exponential backoff from line 23:
wait_time = min(INITIAL_WAIT * (2 ** retry_count), MAX_WAIT). -/
def wait_time (retry_count : Nat) : Nat :=
  min (INITIAL_WAIT * 2 ^ retry_count) MAX_WAIT

/-- One row of the trip table.  pd.isna-able coordinate columns are Options;
times are rational seconds. -/
structure Row where
  trip_ID : Nat
  pickup_location_latitude : Option ℚ
  pickup_location_longitude : Option ℚ
  dropoff_location_latitude : Option ℚ
  dropoff_location_longitude : Option ℚ
  start_time_local : ℚ
  end_time_local : ℚ
deriving DecidableEq

/-- A route object inside the OSRM JSON payload: routes[0] has a geometry
with coordinates, a duration and a distance. -/
structure OsrmRoute where
  coordinates : List (ℚ × ℚ)
  duration : ℚ
  distance : ℚ
deriving DecidableEq

/-- The parsed JSON payload of a response: a code field and a routes list. -/
structure Payload where
  code : String
  routes : List OsrmRoute
deriving DecidableEq

/-- What one attempt of the fetch observes.  http carries the status and the
parsed body (none when response.json() itself raises, which the generic
except branch catches); timeout is asyncio.TimeoutError; transportError is
any other exception from the request. -/
inductive Response where
  | timeout
  | transportError
  | http (status : Nat) (body : Option Payload)
deriving DecidableEq

/-- The dict built on lines 38-43 / 46-51. -/
structure RouteDict where
  coordinates : List (ℚ × ℚ)
  duration : ℚ
  distance : ℚ
  average_speed : ℚ
deriving DecidableEq

/-- The possible Python return values of get_osrm_route: a dict (lines 38-51),
None (line 33), or the bare two-point list returned on lines 58 and 65. -/
inductive FetchResult where
  | routeDict (d : RouteDict)
  | dropped
  | bareList (coords : List (ℚ × ℚ))
deriving DecidableEq

/-- Python exceptions the pipeline itself can raise. -/
inductive PyErr where
  | typeError
  | zeroDivisionError
deriving DecidableEq

/-- Embedding of get_osrm_route (lines 18-65).  Here oracle k is the response the attempt with
retry_count = k receives; s and d are the (lng, lat) pairs of origin and
destination.  On status 429 with retries left it recurses with
retry_count + 1, else returns None; on a usable payload it returns the
route dict; on an unusable payload it returns the degenerate straight-line
dict; on timeout or any other exception it retries while retries are left
and otherwise returns the bare coordinate list of lines 58/65. -/
def get_osrm_route (oracle : Nat → Response) (s d : ℚ × ℚ)
    (retry_count : Nat) : FetchResult :=
  match oracle retry_count with
  | .http status body =>
    if status = 429 then
      if h : retry_count < MAX_RETRIES then
        get_osrm_route oracle s d (retry_count + 1)
      else
        .dropped
    else
      match body with
      | some data =>
        -- data["code"] == "Ok" and data["routes"] and
        -- data["routes"][0]["geometry"]["coordinates"]
        match data.routes with
        | r :: _ =>
          if data.code = "Ok" ∧ r.coordinates ≠ [] then
            .routeDict
              { coordinates := r.coordinates
                duration := r.duration
                distance := r.distance
                average_speed :=
                  if 0 < r.duration then r.distance / r.duration else 0 }
          else
            .routeDict { coordinates := [s, d], duration := 0, distance := 0,
                         average_speed := 0 }
        | [] =>
          .routeDict { coordinates := [s, d], duration := 0, distance := 0,
                       average_speed := 0 }
      | none =>
        if h : retry_count < MAX_RETRIES then
          get_osrm_route oracle s d (retry_count + 1)
        else
          .bareList [s, d]
  | .timeout =>
    if h : retry_count < MAX_RETRIES then
      get_osrm_route oracle s d (retry_count + 1)
    else
      .bareList [s, d]
  | .transportError =>
    if h : retry_count < MAX_RETRIES then
      get_osrm_route oracle s d (retry_count + 1)
    else
      .bareList [s, d]
termination_by MAX_RETRIES - retry_count
decreasing_by all_goals omega

/-- One step of the loop on lines 93-95: the time of point i, raising
ZeroDivisionError when num_points - 1 is zero. -/
def interpPoint (start_time duration_seconds : ℚ) (num_points i : Nat) :
    Except PyErr ℚ :=
  if (num_points : ℚ) - 1 = 0 then
    .error .zeroDivisionError
  else
    .ok (start_time + duration_seconds * ((i : ℚ) / ((num_points : ℚ) - 1)))

/-- The loop of lines 92-95 over a list of indices, stopping at the first
raised exception. -/
def interpList (start_time duration_seconds : ℚ) (num_points : Nat) :
    List Nat → Except PyErr (List ℚ)
  | [] => .ok []
  | i :: rest =>
    match interpPoint start_time duration_seconds num_points i with
    | .error e => .error e
    | .ok t =>
      match interpList start_time duration_seconds num_points rest with
      | .error e => .error e
      | .ok ts => .ok (t :: ts)

/-- Lines 92-95: the exact (pre-formatting) timestamps for every point index
in range(num_points). -/
def interpTimes (start_time duration_seconds : ℚ) (num_points : Nat) :
    Except PyErr (List ℚ) :=
  interpList start_time duration_seconds num_points (List.range num_points)

/-- Formatting: strftime with a whole-seconds format truncates the timestamp. -/
def strftimeSeconds (t : ℚ) : ℤ := Int.floor t

/-- A Feature as built on lines 97-111 (popup not modelled). -/
structure Feature where
  tripId : Nat
  times : List ℤ
  duration : ℚ
  distance : ℚ
  average_speed : ℚ
  coordinates : List (ℚ × ℚ)
deriving DecidableEq

/-- Embedding of process_trip (lines 72-118).  Rows with a missing pickup coordinate are
skipped (None).  A falsy fetch result (None) yields None.  A truthy fetch
result enters the feature-building block: a route dict is read out field by
field, while the bare list of lines 58/65 raises TypeError at
route_data["coordinates"].  Timestamp interpolation may raise
ZeroDivisionError. -/
def process_trip (oracle : Nat → Response) (row : Row) :
    Except PyErr (Option Feature) :=
  match row.pickup_location_latitude, row.pickup_location_longitude with
  | some pickup_lat, some pickup_lng =>
    let dropoff_lat := row.dropoff_location_latitude.getD pickup_lat
    let dropoff_lng := row.dropoff_location_longitude.getD pickup_lng
    match get_osrm_route oracle (pickup_lng, pickup_lat)
        (dropoff_lng, dropoff_lat) 0 with
    | .dropped => .ok none
    | .bareList _ => .error .typeError
    | .routeDict route_data =>
      let start_time := row.start_time_local
      let end_time := row.end_time_local
      let duration_seconds := end_time - start_time
      let num_points := route_data.coordinates.length
      match interpTimes start_time duration_seconds num_points with
      | .error e => .error e
      | .ok ts =>
        .ok (some
          { tripId := row.trip_ID
            times := ts.map strftimeSeconds
            duration := route_data.duration
            distance := route_data.distance
            average_speed := route_data.average_speed
            coordinates := route_data.coordinates })
  | _, _ => .ok none

/-- Embedding of process_chunk (lines 67-127): every row of the chunk is processed (the
tasks of asyncio.gather, whose results keep input order), None results are
filtered out, and an exception raised by any task propagates. -/
def process_chunk (oracle : Nat → Nat → Response) :
    List Row → Except PyErr (List Feature)
  | [] => .ok []
  | row :: rest =>
    match process_trip (oracle row.trip_ID) row with
    | .error e => .error e
    | .ok maybeFeature =>
      match process_chunk oracle rest with
      | .error e => .error e
      | .ok fs =>
        .ok (match maybeFeature with
             | none => fs
             | some f => f :: fs)

/-- Observable pipeline effects of process_trips: a checkpoint save of the
accumulated feature list after a chunk (line 163), or the inter-chunk
asyncio.sleep(2) of line 169. -/
inductive Event where
  | save (features : List Feature)
  | sleep
deriving DecidableEq

/-- Whether an event is a checkpoint write. -/
def Event.isSave : Event → Bool
  | .save _ => true
  | .sleep => false

/-- Line 149: trips_data[i:i + CHUNK_SIZE] for i in range(0, len, CHUNK_SIZE). -/
def chunksOf (n : Nat) (l : List Row) : List (List Row) :=
  if h : n = 0 ∨ l = [] then
    []
  else
    l.take n :: chunksOf n (l.drop n)
termination_by l.length
decreasing_by
  simp only [List.length_drop]
  rcases Nat.eq_zero_or_pos n with h0 | h0
  · exact absurd (Or.inl h0) h
  · have : l ≠ [] := fun hl => h (Or.inr hl)
    have : 0 < l.length := List.length_pos.mpr this
    omega

/-- Lines 134-141: when a checkpoint file exists its features are loaded and
every trip whose trip_ID is among the loaded tripIds is filtered out of the
work list. -/
def workList (checkpoint : Option (List Feature)) (trips : List Row) :
    List Row :=
  match checkpoint with
  | none => trips
  | some feats =>
    let processed_ids := feats.map Feature.tripId
    trips.filter (fun r => !(processed_ids.contains r.trip_ID))

/-- The chunk loop of lines 154-169: process each chunk, extend the
accumulated features, write a checkpoint of the accumulator, and sleep only
when more chunks remain.  Returns the final accumulator and the ordered
event trace. -/
def runChunks (oracle : Nat → Nat → Response) :
    List (List Row) → List Feature → Except PyErr (List Feature × List Event)
  | [], acc => .ok (acc, [])
  | chunk :: rest, acc =>
    match process_chunk oracle chunk with
    | .error e => .error e
    | .ok chunk_features =>
      let acc2 := acc ++ chunk_features
      match runChunks oracle rest acc2 with
      | .error e => .error e
      | .ok (finalFeatures, events) =>
        .ok (finalFeatures,
             Event.save acc2 ::
               ((if rest.isEmpty then [] else [Event.sleep]) ++ events))

/-- The observable outcome of a successful run of main: the features of the
final FeatureCollection, the event trace, and the final contents of the
checkpoint file and the output file. -/
structure RunResult where
  features : List Feature
  events : List Event
  checkpointFile : Option (List Feature)
  outputFile : Option (List Feature)
deriving DecidableEq

/-- Embedding of process_trips (lines 129-171) wired into main (lines 173-197): load the
checkpoint, filter the work list, run the chunk loop, write the final
output file, delete the checkpoint file.  chunkSize is the CHUNK_SIZE
configuration constant. -/
def mainRun (oracle : Nat → Nat → Response) (chunkSize : Nat)
    (checkpoint : Option (List Feature)) (trips : List Row) :
    Except PyErr RunResult :=
  let initial := checkpoint.getD []
  let remaining := workList checkpoint trips
  match runChunks oracle (chunksOf chunkSize remaining) initial with
  | .error e => .error e
  | .ok (features, events) =>
    .ok { features := features
          events := events
          checkpointFile := none
          outputFile := some features }

/-- The invariant of claim C4 on one Feature. -/
def featInv (f : Feature) : Prop :=
  f.times.length = f.coordinates.length ∧ 1 ≤ f.coordinates.length

/-! ## Helper lemmas -/

/-- When the divisor num_points - 1 is nonzero, the interpolation loop never
raises and yields the closed-form time for every index. -/
theorem interpList_ok (start_time duration_seconds : ℚ) (num_points : Nat)
    (hne : (num_points : ℚ) - 1 ≠ 0) (l : List Nat) :
    interpList start_time duration_seconds num_points l =
      .ok (l.map (fun i : Nat =>
        start_time + duration_seconds * ((i : ℚ) / ((num_points : ℚ) - 1)))) := by
  induction l with
  | nil => rfl
  | cons i rest ih => simp [interpList, interpPoint, hne, ih]

/-- For at least two points, interpTimes succeeds with the closed-form
timestamps. -/
theorem interpTimes_eq (start_time duration_seconds : ℚ) (num_points : Nat)
    (h : 2 ≤ num_points) :
    interpTimes start_time duration_seconds num_points =
      .ok ((List.range num_points).map (fun i : Nat =>
        start_time + duration_seconds * ((i : ℚ) / ((num_points : ℚ) - 1)))) := by
  have h2 : (2 : ℚ) ≤ (num_points : ℚ) := by exact_mod_cast h
  have hne : (num_points : ℚ) - 1 ≠ 0 := by
    intro hc
    linarith
  exact interpList_ok _ _ _ hne _

/-- For exactly one point the loop divides by zero on its first iteration. -/
theorem interpTimes_one (start_time duration_seconds : ℚ) :
    interpTimes start_time duration_seconds 1 = .error .zeroDivisionError := by
  norm_num [interpTimes, interpList, interpPoint]

/-! ## Claims -/

/-- Claim C9: the backoff wait for attempt number a equals
min(INITIAL_WAIT * 2^a, MAX_WAIT); wait_time is a pure total function, so
equal attempts trivially get equal waits. -/
theorem c9_backoff_policy (attempt : Nat) :
    wait_time attempt = min (INITIAL_WAIT * 2 ^ attempt) MAX_WAIT := rfl

/-- Claim C2, counterexample: for a single-point route the interpolator does
not assign the single timestamp start_time; it raises ZeroDivisionError
(0 / (1 - 1) on line 94). -/
theorem c2_counterexample :
    interpTimes 0 (7 - 0) 1 = .error .zeroDivisionError ∧
    interpTimes 0 (7 - 0) 1 ≠ .ok [0] := by
  refine ⟨interpTimes_one 0 (7 - 0), ?_⟩
  rw [interpTimes_one 0 (7 - 0)]
  intro hc
  exact Except.noConfusion hc

/-- Claim C2 (amended): for every start time, end time and point count
n ≥ 2, point index i gets timestamp
start_time + (end_time - start_time) * (i / (n - 1)); for n = 1 the
interpolation raises ZeroDivisionError instead of assigning start_time. -/
theorem c2_interpolator_formula (start_time end_time : ℚ) (n : Nat)
    (h : 2 ≤ n) :
    interpTimes start_time (end_time - start_time) n =
      .ok ((List.range n).map (fun i : Nat =>
        start_time + (end_time - start_time) * ((i : ℚ) / ((n : ℚ) - 1)))) :=
  interpTimes_eq start_time (end_time - start_time) n h

/-- Witness for c2_interpolator_formula at start 0, end 10, n = 3. -/
theorem c2_interpolator_formula_witness :
    2 ≤ 3 ∧
    interpTimes 0 (10 - 0) 3 =
      .ok ((List.range 3).map (fun i : Nat =>
        (0 : ℚ) + (10 - 0) * ((i : ℚ) / ((3 : ℚ) - 1)))) :=
  ⟨by norm_num, c2_interpolator_formula 0 10 3 (by norm_num)⟩

/-- Claim C10: a non-429 response whose body parses but is unusable (code
not Ok, or empty routes, or empty first-route coordinates) immediately
yields the degenerate straight-line dict, with no retry, whatever the
status code. -/
theorem c10_unusable_payload_direct_fallback (oracle : Nat → Response)
    (s d : ℚ × ℚ) (k status : Nat) (data : Payload)
    (hstatus : status ≠ 429)
    (hresp : oracle k = .http status (some data))
    (hbad : data.code ≠ "Ok" ∨ data.routes = [] ∨
        ∃ r rest, data.routes = r :: rest ∧ r.coordinates = []) :
    get_osrm_route oracle s d k =
      .routeDict { coordinates := [s, d], duration := 0, distance := 0,
                   average_speed := 0 } := by
  rw [get_osrm_route, hresp]
  rcases hbad with hcode | hnil | ⟨r, rest, hr, hc⟩
  · cases hroutes : data.routes with
    | nil => simp [hstatus, hroutes]
    | cons r rest => simp [hstatus, hcode, hroutes]
  · simp [hstatus, hnil]
  · simp [hstatus, hr, hc]

/-- Payload for the c10 witness: status Ok but an empty routes list. -/
def payloadC10 : Payload := { code := "Ok", routes := [] }

/-- Oracle for the c10 witness: every attempt sees a 500 with that body. -/
def oracleC10 : Nat → Response := fun _ => Response.http 500 (some payloadC10)

/-- Witness for c10_unusable_payload_direct_fallback: a 500 response with an
empty routes list produces the degenerate dict at attempt 0. -/
theorem c10_witness :
    get_osrm_route oracleC10 (0, 0) (1, 1) 0 =
      .routeDict { coordinates := [(0, 0), (1, 1)], duration := 0,
                   distance := 0, average_speed := 0 } :=
  c10_unusable_payload_direct_fallback oracleC10 (0, 0) (1, 1) 0 500
    payloadC10 (by decide) rfl (Or.inr (Or.inl rfl))

/-- Under all-429 responses the fetch resolves to Dropped from every attempt
number up to MAX_RETRIES. -/
theorem get_rate_limited_dropped (oracle : Nat → Response)
    (b : Nat → Option Payload) (hrl : ∀ k, oracle k = .http 429 (b k))
    (s d : ℚ × ℚ) :
    ∀ j k, MAX_RETRIES - k ≤ j → get_osrm_route oracle s d k = .dropped := by
  intro j
  induction j with
  | zero =>
    intro k hj
    have hk : ¬ k < MAX_RETRIES := by omega
    rw [get_osrm_route, hrl k]
    simp [hk]
  | succ j ih =>
    intro k hj
    by_cases hk : k < MAX_RETRIES
    · rw [get_osrm_route, hrl k]
      simp only [if_pos rfl, dif_pos hk]
      exact ih (k + 1) (by omega)
    · rw [get_osrm_route, hrl k]
      simp [hk]

/-- Claim C6: when every attempt is answered with HTTP 429, the client
retries with attempt + 1 while the attempt count is below MAX_RETRIES,
returns Dropped (None) once retries are exhausted, so the whole fetch
resolves to Dropped, and the trip contributes no Feature. -/
theorem c6_rate_limit_dropped (oracle : Nat → Response)
    (b : Nat → Option Payload) (s d : ℚ × ℚ) (row : Row)
    (hrl : ∀ k, oracle k = .http 429 (b k)) :
    (∀ k, k < MAX_RETRIES →
        get_osrm_route oracle s d k = get_osrm_route oracle s d (k + 1)) ∧
    get_osrm_route oracle s d MAX_RETRIES = .dropped ∧
    get_osrm_route oracle s d 0 = .dropped ∧
    process_trip oracle row = .ok none := by
  refine ⟨?_, ?_, ?_, ?_⟩
  · intro k hk
    rw [get_osrm_route, hrl k]
    simp [hk]
  · exact get_rate_limited_dropped oracle b hrl s d 0 MAX_RETRIES (by omega)
  · exact get_rate_limited_dropped oracle b hrl s d MAX_RETRIES 0 (by omega)
  · have hdrop : ∀ s2 d2 : ℚ × ℚ, get_osrm_route oracle s2 d2 0 = .dropped :=
      fun s2 d2 =>
        get_rate_limited_dropped oracle b hrl s2 d2 MAX_RETRIES 0 (by omega)
    unfold process_trip
    cases row.pickup_location_latitude with
    | none => rfl
    | some pickup_lat =>
      cases row.pickup_location_longitude with
      | none => rfl
      | some pickup_lng => simp [hdrop]

/-- Row for the c6 witness (pickup present, so the fetch really runs). -/
def rowC6 : Row :=
  { trip_ID := 7
    pickup_location_latitude := some 3
    pickup_location_longitude := some 4
    dropoff_location_latitude := some 5
    dropoff_location_longitude := some 6
    start_time_local := 0
    end_time_local := 60 }

/-- Oracle for the c6 witness: every attempt is rate limited. -/
def oracleC6 : Nat → Response := fun _ => Response.http 429 none

/-- Witness for c6_rate_limit_dropped: the all-429 oracle makes the fetch
resolve to Dropped and the trip yields no Feature. -/
theorem c6_witness :
    get_osrm_route oracleC6 (4, 3) (6, 5) 0 = .dropped ∧
    process_trip oracleC6 rowC6 = .ok none :=
  ⟨(c6_rate_limit_dropped oracleC6 (fun _ => none) (4, 3) (6, 5) rowC6
      (fun _ => rfl)).2.2.1,
   (c6_rate_limit_dropped oracleC6 (fun _ => none) (4, 3) (6, 5) rowC6
      (fun _ => rfl)).2.2.2⟩

/-- Scenario C1, trip 1: missing pickup coordinate. -/
def rowMissingC1 : Row :=
  { trip_ID := 1
    pickup_location_latitude := none
    pickup_location_longitude := some 0
    dropoff_location_latitude := none
    dropoff_location_longitude := none
    start_time_local := 0
    end_time_local := 10 }

/-- Scenario C1, trip 2: its fetch times out on every attempt. -/
def rowTimeoutC1 : Row :=
  { trip_ID := 2
    pickup_location_latitude := some 3
    pickup_location_longitude := some 4
    dropoff_location_latitude := some 5
    dropoff_location_longitude := some 6
    start_time_local := 0
    end_time_local := 10 }

/-- Scenario C1, trip 3: its fetch succeeds on the first attempt. -/
def rowOkC1 : Row :=
  { trip_ID := 3
    pickup_location_latitude := some 1
    pickup_location_longitude := some 2
    dropoff_location_latitude := some 3
    dropoff_location_longitude := some 4
    start_time_local := 0
    end_time_local := 100 }

/-- The successful payload trip 3 receives. -/
def payloadC1 : Payload :=
  { code := "Ok"
    routes := [{ coordinates := [(0, 0), (1, 1), (2, 2)]
                 duration := 100
                 distance := 500 }] }

/-- Oracle for scenario C1: trip 2 always times out, everything else succeeds at once. -/
def oracleC1 : Nat → Nat → Response := fun trip_id _ =>
  if trip_id = 2 then Response.timeout else Response.http 200 (some payloadC1)

/-- The Feature trip 3 yields (3 points, so times 0, 50, 100). -/
def featOkC1 : Feature :=
  { tripId := 3
    times := [0, 50, 100]
    duration := 100
    distance := 500
    average_speed := 5
    coordinates := [(0, 0), (1, 1), (2, 2)] }

/-- Claim C1: in the 3-trip scenario the timed-out trip does not yield the
claimed zero-duration fallback Feature.  After exhausting its retries the
fetch returns the bare coordinate list of line 58, process_trip then
evaluates that list with a string index (line 91) and raises TypeError, and
the whole pipeline run raises instead of producing the two Features (the
missing-pickup trip is skipped and the successful trip alone would have
produced a Feature). -/
theorem c1_timeout_fallback_crashes :
    get_osrm_route (oracleC1 2) (4, 3) (6, 5) 0 = .bareList [(4, 3), (6, 5)] ∧
    process_trip (oracleC1 2) rowTimeoutC1 = .error .typeError ∧
    process_trip (oracleC1 1) rowMissingC1 = .ok none ∧
    process_trip (oracleC1 3) rowOkC1 = .ok (some featOkC1) ∧
    mainRun oracleC1 CHUNK_SIZE none [rowMissingC1, rowTimeoutC1, rowOkC1] =
      .error .typeError := by
  have hbare : get_osrm_route (oracleC1 2) (4, 3) (6, 5) 0 =
      .bareList [(4, 3), (6, 5)] := by
    simp [get_osrm_route, oracleC1, MAX_RETRIES]
  have htimeout : process_trip (oracleC1 2) rowTimeoutC1 = .error .typeError := by
    simp [process_trip, rowTimeoutC1, hbare]
  have hmissing : process_trip (oracleC1 1) rowMissingC1 = .ok none := by
    simp [process_trip, rowMissingC1]
  have hok : process_trip (oracleC1 3) rowOkC1 = .ok (some featOkC1) := by
    simp [process_trip, rowOkC1, get_osrm_route, oracleC1, payloadC1,
      interpTimes, interpList, interpPoint, featOkC1]
    norm_num [strftimeSeconds]
  refine ⟨hbare, htimeout, hmissing, hok, ?_⟩
  have hid1 : rowMissingC1.trip_ID = 1 := rfl
  have hid2 : rowTimeoutC1.trip_ID = 2 := rfl
  simp [mainRun, workList, chunksOf, CHUNK_SIZE, runChunks, process_chunk,
    hid1, hid2, hmissing, htimeout]

/-- Claim C7: with chunk size 2 and any 5-trip work list that runs to
completion, the event trace is exactly save, sleep, save, sleep, save
(three checkpoint writes, one per chunk, with the inter-chunk delay only
between chunks and never after the last), and after finalize the
checkpoint file is gone while the output file holds the features. -/
theorem c7_chunk_checkpoint_schedule (oracle : Nat → Nat → Response)
    (t1 t2 t3 t4 t5 : Row) (res : RunResult)
    (h : mainRun oracle 2 none [t1, t2, t3, t4, t5] = .ok res) :
    res.events.map Event.isSave = [true, false, true, false, true] ∧
    res.checkpointFile = none ∧
    res.outputFile = some res.features := by
  have hch : chunksOf 2 [t1, t2, t3, t4, t5] = [[t1, t2], [t3, t4], [t5]] := by
    simp [chunksOf]
  simp only [mainRun, workList, Option.getD, hch] at h
  cases h1 : process_chunk oracle [t1, t2] with
  | error e => simp [runChunks, h1] at h
  | ok f1 =>
    cases h2 : process_chunk oracle [t3, t4] with
    | error e => simp [runChunks, h1, h2] at h
    | ok f2 =>
      cases h3 : process_chunk oracle [t5] with
      | error e => simp [runChunks, h1, h2, h3] at h
      | ok f3 =>
        simp only [runChunks, h1, h2, h3, List.isEmpty, Except.ok.injEq] at h
        subst h
        simp [Event.isSave]

/-- Row for the c7 witness: the pickup coordinate is missing, so every chunk
completes without any fetch. -/
def rowC7 : Row :=
  { trip_ID := 9
    pickup_location_latitude := none
    pickup_location_longitude := none
    dropoff_location_latitude := none
    dropoff_location_longitude := none
    start_time_local := 0
    end_time_local := 1 }

/-- Oracle for the c7 witness (never consulted). -/
def oracleC7 : Nat → Nat → Response := fun _ _ => Response.timeout

/-- The run result of the c7 witness scenario. -/
def resC7 : RunResult :=
  { features := []
    events := [Event.save [], Event.sleep, Event.save [], Event.sleep,
               Event.save []]
    checkpointFile := none
    outputFile := some [] }

/-- Witness for c7_chunk_checkpoint_schedule on a concrete successful
5-trip run with chunk size 2. -/
theorem c7_witness :
    mainRun oracleC7 2 none [rowC7, rowC7, rowC7, rowC7, rowC7] = .ok resC7 ∧
    resC7.events.map Event.isSave = [true, false, true, false, true] ∧
    resC7.checkpointFile = none ∧
    resC7.outputFile = some resC7.features := by
  have hrun : mainRun oracleC7 2 none [rowC7, rowC7, rowC7, rowC7, rowC7] =
      .ok resC7 := by
    simp [mainRun, workList, chunksOf, runChunks, process_chunk, process_trip,
      rowC7, resC7]
  exact ⟨hrun,
    c7_chunk_checkpoint_schedule oracleC7 rowC7 rowC7 rowC7 rowC7 rowC7 resC7
      hrun⟩

/-- Chunking with a positive chunk size partitions the work list: the
concatenation of the chunks is the work list itself, so the chunk loop
dispatches exactly the rows of the work list. -/
theorem chunksOf_flatten (n : Nat) (hn : 0 < n) (l : List Row) :
    (chunksOf n l).flatten = l := by
  have H : ∀ m (l : List Row), l.length ≤ m → (chunksOf n l).flatten = l := by
    intro m
    induction m with
    | zero =>
      intro l hl
      have hl0 : l = [] := List.length_eq_zero.mp (Nat.le_zero.mp hl)
      subst hl0
      rw [chunksOf]
      simp
    | succ m ih =>
      intro l hl
      rw [chunksOf]
      by_cases hc : n = 0 ∨ l = []
      · rcases hc with hc | hc
        · omega
        · subst hc
          simp
      · rw [dif_neg hc]
        have hne : l ≠ [] := fun he => hc (Or.inr he)
        have hpos : 0 < l.length := List.length_pos.mpr hne
        rw [List.flatten_cons, ih (l.drop n) (by simp; omega),
          List.take_append_drop]
  exact H l.length l le_rfl

/-- Claim C5: rows surviving the startup filter never carry an identifier of
the loaded collection; with a loaded collection for trips A and B and the
trip set A, B, C the work list is exactly C; and the chunks the scheduler
then fetches over cover exactly that work list. -/
theorem c5_resume_filter (cp : List Feature) (trips : List Row)
    (rA rB rC : Row) (fA fB : Feature) (n : Nat)
    (hA : fA.tripId = rA.trip_ID) (hB : fB.tripId = rB.trip_ID)
    (hCA : rC.trip_ID ≠ fA.tripId) (hCB : rC.trip_ID ≠ fB.tripId)
    (hn : 0 < n) :
    (∀ r ∈ workList (some cp) trips, r.trip_ID ∉ cp.map Feature.tripId) ∧
    workList (some [fA, fB]) [rA, rB, rC] = [rC] ∧
    (chunksOf n (workList (some cp) trips)).flatten =
      workList (some cp) trips := by
  refine ⟨?_, ?_, chunksOf_flatten n hn _⟩
  · intro r hr
    simp only [workList, List.mem_filter, Bool.not_eq_true'] at hr
    intro hmem
    have : (cp.map Feature.tripId).contains r.trip_ID = true := by
      simpa using hmem
    rw [this] at hr
    exact Bool.noConfusion hr.2
  · simp [workList, hA, hB, hCA, hCB]
    exact ⟨hA ▸ hCA, hB ▸ hCB⟩

/-- Every route dict the fetch client returns has a nonempty coordinate
list: the usable-route branch checks it and both degenerate branches build
the two-point line between origin and destination. -/
theorem get_osrm_route_coords_ne (oracle : Nat → Response) (s d : ℚ × ℚ) :
    ∀ k rd, get_osrm_route oracle s d k = .routeDict rd →
      rd.coordinates ≠ [] := by
  have H : ∀ j k rd, MAX_RETRIES - k < j →
      get_osrm_route oracle s d k = .routeDict rd → rd.coordinates ≠ [] := by
    intro j
    induction j with
    | zero => intro k rd hj; omega
    | succ j ih =>
      intro k rd hj h
      rw [get_osrm_route] at h
      cases ho : oracle k with
      | timeout =>
        rw [ho] at h
        by_cases hk : k < MAX_RETRIES
        · simp only [dif_pos hk] at h
          exact ih (k + 1) rd (by omega) h
        · simp [hk] at h
      | transportError =>
        rw [ho] at h
        by_cases hk : k < MAX_RETRIES
        · simp only [dif_pos hk] at h
          exact ih (k + 1) rd (by omega) h
        · simp [hk] at h
      | http status body =>
        rw [ho] at h
        by_cases hs : status = 429
        · by_cases hk : k < MAX_RETRIES
          · simp only [hs, if_pos rfl, dif_pos hk] at h
            exact ih (k + 1) rd (by omega) h
          · simp [hs, hk] at h
        · cases body with
          | none =>
            by_cases hk : k < MAX_RETRIES
            · simp only [if_neg hs, dif_pos hk] at h
              exact ih (k + 1) rd (by omega) h
            · simp [hs, hk] at h
          | some data =>
            cases hroutes : data.routes with
            | nil =>
              simp only [if_neg hs, hroutes, FetchResult.routeDict.injEq] at h
              rw [← h]
              simp
            | cons r rest =>
              by_cases hcond : data.code = "Ok" ∧ r.coordinates ≠ []
              · simp only [if_neg hs, hroutes, if_pos hcond,
                  FetchResult.routeDict.injEq] at h
                rw [← h]
                exact hcond.2
              · simp only [if_neg hs, hroutes, if_neg hcond,
                  FetchResult.routeDict.injEq] at h
                rw [← h]
                simp
  intro k rd
  exact H (MAX_RETRIES - k + 1) k rd (by omega)

/-- Destructing a successful process_trip: the Feature keeps the route
dict's coordinates (at least two of them, else interpolation would have
raised), and its times are the truncated interpolated timestamps. -/
theorem process_trip_ok_some_spec (oracle : Nat → Response) (row : Row)
    (f : Feature) (h : process_trip oracle row = .ok (some f)) :
    2 ≤ f.coordinates.length ∧
    f.times = ((List.range f.coordinates.length).map (fun i : ℕ =>
      row.start_time_local +
        (row.end_time_local - row.start_time_local) *
          ((i : ℚ) / ((f.coordinates.length : ℚ) - 1)))).map strftimeSeconds := by
  unfold process_trip at h
  cases hlat : row.pickup_location_latitude with
  | none => rw [hlat] at h; simp at h
  | some pickup_lat =>
    cases hlng : row.pickup_location_longitude with
    | none => rw [hlat, hlng] at h; simp at h
    | some pickup_lng =>
      rw [hlat, hlng] at h
      dsimp only at h
      cases hget : get_osrm_route oracle
          (pickup_lng, pickup_lat)
          (row.dropoff_location_longitude.getD pickup_lng,
           row.dropoff_location_latitude.getD pickup_lat) 0 with
      | dropped => rw [hget] at h; simp at h
      | bareList coords => rw [hget] at h; simp at h
      | routeDict rd =>
        rw [hget] at h
        dsimp only at h
        have hne : rd.coordinates ≠ [] :=
          get_osrm_route_coords_ne oracle _ _ 0 rd hget
        have hn1 : 1 ≤ rd.coordinates.length := by
          cases hcs : rd.coordinates with
          | nil => exact absurd hcs hne
          | cons a l => simp [hcs]
        have hn2 : 2 ≤ rd.coordinates.length := by
          rcases Nat.lt_or_ge rd.coordinates.length 2 with hlt | hge
          · have : rd.coordinates.length = 1 := by omega
            rw [this, interpTimes_one] at h
            simp at h
          · exact hge
        rw [interpTimes_eq _ _ _ hn2] at h
        simp only [Except.ok.injEq, Option.some.injEq] at h
        rw [← h]
        exact ⟨hn2, rfl⟩

/-- A successful process_trip Feature satisfies the times/coordinates
invariant. -/
theorem process_trip_featInv (oracle : Nat → Response) (row : Row)
    (f : Feature) (h : process_trip oracle row = .ok (some f)) : featInv f := by
  obtain ⟨hn2, htimes⟩ := process_trip_ok_some_spec oracle row f h
  constructor
  · rw [htimes, List.length_map, List.length_map, List.length_range]
  · omega

/-- Every Feature of a successful chunk comes from a successful
process_trip on one of the chunk's rows. -/
theorem process_chunk_mem (oracle : Nat → Nat → Response) :
    ∀ rows fs, process_chunk oracle rows = .ok fs →
      ∀ f ∈ fs, ∃ row, process_trip (oracle row.trip_ID) row = .ok (some f) := by
  intro rows
  induction rows with
  | nil =>
    intro fs h f hf
    simp only [process_chunk, Except.ok.injEq] at h
    rw [← h] at hf
    simp at hf
  | cons row rest ih =>
    intro fs h f hf
    rw [process_chunk] at h
    cases hpt : process_trip (oracle row.trip_ID) row with
    | error e => rw [hpt] at h; simp at h
    | ok mf =>
      rw [hpt] at h
      cases hrest : process_chunk oracle rest with
      | error e => rw [hrest] at h; simp at h
      | ok fs2 =>
        rw [hrest] at h
        simp only [Except.ok.injEq] at h
        cases mf with
        | none =>
          rw [← h] at hf
          exact ih fs2 hrest f hf
        | some f0 =>
          rw [← h] at hf
          rcases List.mem_cons.mp hf with hf | hf
          · exact ⟨row, hf ▸ hpt⟩
          · exact ih fs2 hrest f hf

/-- The chunk loop preserves the Feature invariant: if the accumulator
satisfies it, so do the final features and every checkpointed snapshot. -/
theorem runChunks_inv (oracle : Nat → Nat → Response) :
    ∀ chunks acc finalF evs,
      (∀ f ∈ acc, featInv f) →
      runChunks oracle chunks acc = .ok (finalF, evs) →
      (∀ f ∈ finalF, featInv f) ∧
      (∀ w, Event.save w ∈ evs → ∀ f ∈ w, featInv f) := by
  intro chunks
  induction chunks with
  | nil =>
    intro acc finalF evs hacc h
    simp only [runChunks, Except.ok.injEq, Prod.mk.injEq] at h
    obtain ⟨h1, h2⟩ := h
    subst h1
    refine ⟨hacc, ?_⟩
    intro w hw
    rw [← h2] at hw
    simp at hw
  | cons chunk rest ih =>
    intro acc finalF evs hacc h
    rw [runChunks] at h
    cases hc : process_chunk oracle chunk with
    | error e => rw [hc] at h; simp at h
    | ok cf =>
      rw [hc] at h
      dsimp only at h
      cases hr : runChunks oracle rest (acc ++ cf) with
      | error e => rw [hr] at h; simp at h
      | ok p =>
        obtain ⟨finalF2, evs2⟩ := p
        rw [hr] at h
        simp only [Except.ok.injEq, Prod.mk.injEq] at h
        obtain ⟨hfin, hev⟩ := h
        have hacc2 : ∀ f ∈ acc ++ cf, featInv f := by
          intro f hf
          rcases List.mem_append.mp hf with hf | hf
          · exact hacc f hf
          · obtain ⟨row, hrow⟩ := process_chunk_mem oracle chunk cf hc f hf
            exact process_trip_featInv _ row f hrow
        obtain ⟨hfinal, hsaves⟩ := ih (acc ++ cf) finalF2 evs2 hacc2 hr
        refine ⟨hfin ▸ hfinal, ?_⟩
        intro w hw
        rw [← hev] at hw
        rcases List.mem_cons.mp hw with hw | hw
        · cases hw
          exact hacc2
        · rcases List.mem_append.mp hw with hw | hw
          · by_cases hrest2 : rest.isEmpty <;> simp [hrest2] at hw
          · exact hsaves w hw

/-- Claim C4: in any successful run whose loaded checkpoint features
satisfy the invariant, every Feature of the output collection, of every
checkpoint write, and of the final output file has as many times as
coordinates, at least one of each. -/
theorem c4_times_coordinates_invariant (oracle : Nat → Nat → Response)
    (chunkSize : Nat) (checkpoint : Option (List Feature)) (trips : List Row)
    (res : RunResult)
    (hcp : ∀ f ∈ checkpoint.getD [], featInv f)
    (h : mainRun oracle chunkSize checkpoint trips = .ok res) :
    (∀ f ∈ res.features, featInv f) ∧
    (∀ w, Event.save w ∈ res.events → ∀ f ∈ w, featInv f) ∧
    (∀ out, res.outputFile = some out → ∀ f ∈ out, featInv f) := by
  simp only [mainRun] at h
  cases hr : runChunks oracle (chunksOf chunkSize (workList checkpoint trips))
      (checkpoint.getD []) with
  | error e => rw [hr] at h; simp at h
  | ok p =>
    obtain ⟨features, events⟩ := p
    rw [hr] at h
    simp only [Except.ok.injEq] at h
    obtain ⟨hfinal, hsaves⟩ :=
      runChunks_inv oracle _ _ features events hcp hr
    rw [← h]
    refine ⟨hfinal, hsaves, ?_⟩
    intro out hout
    simp only [Option.some.injEq] at hout
    rw [← hout]
    exact hfinal

/-- Trip row for the c4 witness. -/
def rowC4 : Row :=
  { trip_ID := 11, pickup_location_latitude := some 1,
    pickup_location_longitude := some 2, dropoff_location_latitude := some 3,
    dropoff_location_longitude := some 4, start_time_local := 0,
    end_time_local := 100 }

/-- Payload for the c4 witness. -/
def payloadC4 : Payload :=
  { code := "Ok"
    routes := [{ coordinates := [(0, 0), (1, 1), (2, 2)], duration := 100,
                 distance := 500 }] }

/-- Oracle for the c4 witness: every fetch succeeds at once. -/
def oracleC4 : Nat → Nat → Response := fun _ _ =>
  Response.http 200 (some payloadC4)

/-- The Feature the c4 witness run produces. -/
def featC4 : Feature :=
  { tripId := 11, times := [0, 50, 100], duration := 100, distance := 500,
    average_speed := 5, coordinates := [(0, 0), (1, 1), (2, 2)] }

/-- The run result of the c4 witness scenario. -/
def resC4 : RunResult :=
  { features := [featC4]
    events := [Event.save [featC4]]
    checkpointFile := none
    outputFile := some [featC4] }

/-- Witness for c4_times_coordinates_invariant on a concrete one-trip run. -/
theorem c4_witness :
    mainRun oracleC4 CHUNK_SIZE none [rowC4] = .ok resC4 ∧ featInv featC4 := by
  have hpt : process_trip (oracleC4 rowC4.trip_ID) rowC4 = .ok (some featC4) := by
    simp [process_trip, rowC4, get_osrm_route, oracleC4, payloadC4,
      interpTimes, interpList, interpPoint, featC4]
    norm_num [strftimeSeconds]
  have hrun : mainRun oracleC4 CHUNK_SIZE none [rowC4] = .ok resC4 := by
    simp [mainRun, workList, chunksOf, CHUNK_SIZE, runChunks, process_chunk,
      hpt, resC4]
  exact ⟨hrun,
    (c4_times_coordinates_invariant oracleC4 CHUNK_SIZE none [rowC4] resC4
        (by simp) hrun).1 featC4 (by simp [resC4])⟩

/-- Trip row for the c3 counterexample: its end time precedes its start
time, which the code nowhere rejects. -/
def rowC3 : Row :=
  { trip_ID := 12, pickup_location_latitude := some 1,
    pickup_location_longitude := some 2, dropoff_location_latitude := some 3,
    dropoff_location_longitude := some 4, start_time_local := 10,
    end_time_local := 0 }

/-- Payload for the c3 counterexample: a two-point route. -/
def payloadC3 : Payload :=
  { code := "Ok"
    routes := [{ coordinates := [(0, 0), (1, 1)], duration := 5,
                 distance := 10 }] }

/-- Oracle for the c3 counterexample. -/
def oracleC3 : Nat → Response := fun _ => Response.http 200 (some payloadC3)

/-- The Feature the c3 counterexample produces: timestamps 10 then 0. -/
def featC3 : Feature :=
  { tripId := 12, times := [10, 0], duration := 5, distance := 10,
    average_speed := 2, coordinates := [(0, 0), (1, 1)] }

/-- Claim C3, counterexample: a pipeline-produced Feature whose trip has
end time before start time has strictly decreasing timestamps, so the
non-decreasing part of the claim fails as stated. -/
theorem c3_counterexample :
    process_trip oracleC3 rowC3 = .ok (some featC3) ∧
    ¬ List.Chain' (fun a b : ℤ => a ≤ b) featC3.times := by
  constructor
  · simp [process_trip, rowC3, get_osrm_route, oracleC3, payloadC3,
      interpTimes, interpList, interpPoint, featC3]
    norm_num [strftimeSeconds]
  · simp [featC3, List.chain'_cons]

/-- Claim C3 (amended): every Feature produced by process_trip has its
first timestamp equal to the trip's start time and its last equal to the
trip's end time, both up to the truncation of timestamp formatting, and
provided the trip's end time is not earlier than its start time the
timestamp sequence is non-decreasing. -/
theorem c3_feature_time_endpoints (oracle : Nat → Response) (row : Row)
    (f : Feature) (h : process_trip oracle row = .ok (some f)) :
    (row.start_time_local ≤ row.end_time_local →
      List.Chain' (fun a b : ℤ => a ≤ b) f.times) ∧
    f.times.head? = some (strftimeSeconds row.start_time_local) ∧
    f.times.getLast? = some (strftimeSeconds row.end_time_local) := by
  obtain ⟨hn2, htimes⟩ := process_trip_ok_some_spec oracle row f h
  have hnq : (2 : ℚ) ≤ (f.coordinates.length : ℚ) := by exact_mod_cast hn2
  have hpos : (0 : ℚ) < (f.coordinates.length : ℚ) - 1 := by linarith
  refine ⟨?_, ?_, ?_⟩
  · intro hse
    rw [htimes, List.chain'_map, List.chain'_map]
    obtain ⟨m, hm⟩ : ∃ m, f.coordinates.length = m + 1 :=
      ⟨f.coordinates.length - 1, by omega⟩
    rw [hm, List.chain'_range_succ]
    intro i hi
    apply Int.floor_le_floor
    apply add_le_add_left
    apply mul_le_mul_of_nonneg_left ?_ (by linarith : (0 : ℚ) ≤
      row.end_time_local - row.start_time_local)
    have hpos2 : (0 : ℚ) < ((m + 1 : ℕ) : ℚ) - 1 := by
      rw [← hm]
      exact hpos
    rw [div_le_div_iff_of_pos_right hpos2]
    exact_mod_cast Nat.le_succ i
  · rw [htimes]
    obtain ⟨m, hm⟩ : ∃ m, f.coordinates.length = m + 1 :=
      ⟨f.coordinates.length - 1, by omega⟩
    rw [hm, List.range_succ_eq_map]
    simp only [List.map_cons, List.head?_cons, Option.some.injEq]
    norm_num [strftimeSeconds]
  · rw [htimes, List.getLast?_eq_getElem?]
    simp only [List.length_map, List.length_range]
    rw [List.getElem?_map, List.getElem?_map,
      List.getElem?_range (by omega : f.coordinates.length - 1 <
        f.coordinates.length)]
    simp only [Option.map_some', Option.some.injEq]
    have hcast : ((f.coordinates.length - 1 : ℕ) : ℚ) =
        (f.coordinates.length : ℚ) - 1 := by
      rw [Nat.cast_sub (by omega : 1 ≤ f.coordinates.length)]
      norm_num
    rw [hcast, div_self (by linarith : (f.coordinates.length : ℚ) - 1 ≠ 0)]
    norm_num [strftimeSeconds]

/-- Trip row for the c3 witness (start 0 before end 100). -/
def rowC3w : Row :=
  { trip_ID := 13, pickup_location_latitude := some 1,
    pickup_location_longitude := some 2, dropoff_location_latitude := some 3,
    dropoff_location_longitude := some 4, start_time_local := 0,
    end_time_local := 100 }

/-- Oracle for the c3 witness: same successful payload. -/
def oracleC3w : Nat → Response := fun _ => Response.http 200 (some payloadC3)

/-- The Feature the c3 witness run produces. -/
def featC3w : Feature :=
  { tripId := 13, times := [0, 100], duration := 5, distance := 10,
    average_speed := 2, coordinates := [(0, 0), (1, 1)] }

/-- Witness for c3_feature_time_endpoints on a concrete well-ordered trip. -/
theorem c3_witness :
    process_trip oracleC3w rowC3w = .ok (some featC3w) ∧
    List.Chain' (fun a b : ℤ => a ≤ b) featC3w.times ∧
    featC3w.times.head? = some (strftimeSeconds rowC3w.start_time_local) ∧
    featC3w.times.getLast? = some (strftimeSeconds rowC3w.end_time_local) := by
  have hpt : process_trip oracleC3w rowC3w = .ok (some featC3w) := by
    simp [process_trip, rowC3w, get_osrm_route, oracleC3w, payloadC3,
      interpTimes, interpList, interpPoint, featC3w]
    norm_num [strftimeSeconds]
  have hmain := c3_feature_time_endpoints oracleC3w rowC3w featC3w hpt
  exact ⟨hpt, hmain.1 (by norm_num [rowC3w]), hmain.2.1, hmain.2.2⟩

/-- Checkpoint feature of trip A for the c5 witness. -/
def fAC5 : Feature :=
  { tripId := 1, times := [0, 1], duration := 1, distance := 1,
    average_speed := 1, coordinates := [(0, 0), (1, 1)] }

/-- Checkpoint feature of trip B for the c5 witness. -/
def fBC5 : Feature :=
  { tripId := 2, times := [0, 1], duration := 1, distance := 1,
    average_speed := 1, coordinates := [(0, 0), (1, 1)] }

/-- Trip rows A, B, C for the c5 witness. -/
def rAC5 : Row :=
  { trip_ID := 1, pickup_location_latitude := some 1,
    pickup_location_longitude := some 1, dropoff_location_latitude := some 2,
    dropoff_location_longitude := some 2, start_time_local := 0,
    end_time_local := 9 }

/-- Trip row B for the c5 witness. -/
def rBC5 : Row :=
  { trip_ID := 2, pickup_location_latitude := some 1,
    pickup_location_longitude := some 1, dropoff_location_latitude := some 2,
    dropoff_location_longitude := some 2, start_time_local := 0,
    end_time_local := 9 }

/-- Trip row C for the c5 witness. -/
def rCC5 : Row :=
  { trip_ID := 3, pickup_location_latitude := some 1,
    pickup_location_longitude := some 1, dropoff_location_latitude := some 2,
    dropoff_location_longitude := some 2, start_time_local := 0,
    end_time_local := 9 }

/-- Witness for c5_resume_filter: checkpoint ids are 1 and 2, trip set has
ids 1, 2, 3, and the filtered work list is exactly the id-3 row. -/
theorem c5_witness :
    workList (some [fAC5, fBC5]) [rAC5, rBC5, rCC5] = [rCC5] ∧
    (chunksOf 2 (workList (some [fAC5, fBC5]) [rAC5, rBC5, rCC5])).flatten =
      workList (some [fAC5, fBC5]) [rAC5, rBC5, rCC5] :=
  ⟨(c5_resume_filter [fAC5, fBC5] [rAC5, rBC5, rCC5] rAC5 rBC5 rCC5 fAC5 fBC5
      2 rfl rfl (by decide) (by decide) (by decide)).2.1,
   (c5_resume_filter [fAC5, fBC5] [rAC5, rBC5, rCC5] rAC5 rBC5 rCC5 fAC5 fBC5
      2 rfl rfl (by decide) (by decide) (by decide)).2.2⟩
